import Mathlib

/-!
Verification of the job-sheet text extraction engine of the Bikeworks
shop-management app.

The source under scrutiny is `src/utils/parseJobSheet.ts` (the function
`parseJobSheetText` and its helper `tryPatterns`) together with the caller
`processJobSheet` in `src/components/jobs/JobSheetScanner.tsx` (the
required-field check and the assembly of `jobData`, including `totalCost`).

The TypeScript code works by running JavaScript regular expressions over the
OCR text.  The regexes use only a small set of constructs:

  - case-insensitive literal runs ("Customer", "Work Done", ...),
  - character classes `[\s:]`, `[^\n]`, `[\d\s]`, `[\s\S]`, `\d`,
  - greedy repetition `+`, `*`, `{7,}`, exact counts `{4}`, `{3}`,
  - lazy repetition `+?`,
  - single-character option `?` (on `\s`, `\$`, `\.`),
  - one capture group per regex,
  - a lookahead alternation `(?=A|B|$)` over literals and end of input.

We embed exactly these constructs as the inductive type `RE` below and give
them a backtracking matcher `mrun` in continuation-passing style whose
backtracking order mirrors the JavaScript engine: greedy repetitions try the
longest count first, lazy ones the shortest, the optional element tries to
consume first, and `String.prototype.match` (without the `g` flag) returns
the match at the leftmost possible start position (`searchRE`).  In these
regexes `$` (no `m` flag) matches only at the very end of the input.
-/

/-- Characters are classified through `Char.toNat` so that arithmetic facts
about the classes (for example that a digit is never whitespace) reduce to
facts about natural numbers. -/
def charNat (c : Char) : Nat := c.toNat

/-- The JavaScript `\d` class: exactly the ASCII digits `0`-`9`. -/
def jsDigit (c : Char) : Bool := 48 ≤ charNat c && charNat c ≤ 57

/-- The JavaScript `\s` class: tab, line feed, vertical tab, form feed,
carriage return, space, NBSP, and the Unicode space separators recognised by
the ECMAScript specification. -/
def jsSpace (c : Char) : Bool :=
  (9 ≤ charNat c && charNat c ≤ 13) || charNat c == 32 || charNat c == 160 ||
  charNat c == 0x1680 || (0x2000 ≤ charNat c && charNat c ≤ 0x200A) ||
  charNat c == 0x2028 || charNat c == 0x2029 || charNat c == 0x202F ||
  charNat c == 0x205F || charNat c == 0x3000 || charNat c == 0xFEFF

/-- The class `[\s:]` used between a label and its value. -/
def spaceColon (c : Char) : Bool := jsSpace c || charNat c == 58

/-- The class `[^\n]`: any character except a line feed. -/
def notNewline (c : Char) : Bool := !(charNat c == 10)

/-- The class `[\d\s]` of the phone-number patterns. -/
def digitSpace (c : Char) : Bool := jsDigit c || jsSpace c

/-- The class `[\s\S]`: any character at all. -/
def anyChar (_ : Char) : Bool := true

/-- The literal `\$` (an escaped dollar sign). -/
def dollarChar (c : Char) : Bool := charNat c == 36

/-- The literal `\.` (an escaped dot). -/
def dotChar (c : Char) : Bool := charNat c == 46

/-- Lower-casing used for the `i` (case-insensitive) regex flag; all the
literals in the source regexes are ASCII, where JavaScript case folding and
`Char.toLower` agree. -/
def lowc (c : Char) : Char := c.toLower

/-- Case-insensitive comparison of a literal `l` against the start of `s`. -/
def ciPref : List Char → List Char → Bool
  | [], _ => true
  | _ :: _, [] => false
  | a :: as, b :: bs => (lowc a == lowc b) && ciPref as bs

/-- Case-insensitive substring test: `l` occurs (case-insensitively) at some
position of `s`. -/
def ciSub (l : List Char) : List Char → Bool
  | [] => ciPref l []
  | c :: rest => ciPref l (c :: rest) || ciSub l rest

/-- The regex constructs appearing in `parseJobSheet.ts`.  Every repetition
in the source applies to a single character class, which keeps the matcher
structurally recursive. -/
inductive RE where
  /-- a case-insensitive literal run -/
  | lit (l : List Char)
  /-- `p{mn,}` / `p{mn,mx}`; `greedy = false` is the lazy variant `+?` -/
  | reps (p : Char → Bool) (mn : Nat) (mx : Option Nat) (greedy : Bool)
  /-- `p?` (greedy): try one character, then none -/
  | optc (p : Char → Bool)
  /-- the capture group -/
  | grp (r : RE)
  /-- sequencing -/
  | cat (a b : RE)
  /-- lookahead `(?=l1|l2|...|$)`; `allowEnd` records the `$` alternative -/
  | look (alts : List (List Char)) (allowEnd : Bool)

/-- First success of `f` over a list of candidate repetition counts; the
order of the list is the backtracking order. -/
def firstSome (f : Nat → Option α) : List Nat → Option α
  | [] => none
  | n :: ns =>
    match f n with
    | some v => some v
    | none => firstSome f ns

/-- Candidate counts for a repetition with minimum `mn` whose longest
feasible count is `m`: descending for greedy, ascending for lazy. -/
def countsFor (mn m : Nat) (greedy : Bool) : List Nat :=
  if m < mn then [] else
    let asc := (List.range (m + 1 - mn)).map (fun i => mn + i)
    if greedy then asc.reverse else asc

/-- Longest feasible count for a class repetition: the length of the run of
class characters at the front of the input, capped by the `mx` bound. -/
def capMax (n : Nat) : Option Nat → Nat
  | none => n
  | some m => min n m

/-- Left-biased choice used for the optional element's two alternatives. -/
def orElseO : Option α → Option α → Option α
  | some v, _ => some v
  | none, b => b

/-- Successful match results carry `some cap` when the capture group
participated (`none` would mean an undefined `match[1]`; every regex in the
source has a mandatory group, so successful matches always carry a capture). -/
def mapCapture : Option (Option (List Char)) → List Char → Option (Option (List Char))
  | some _, c => some (some c)
  | none, _ => none

/-- The backtracking matcher.  `mrun r s k` attempts `r` at the front of
`s`; on each way of matching (in JavaScript backtracking order) it calls the
continuation `k` with the remaining input, committing to the first way for
which `k` succeeds. -/
def mrun : RE → List Char → (List Char → Option (Option (List Char))) → Option (Option (List Char))
  | RE.lit l, s, k => if ciPref l s then k (s.drop l.length) else none
  | RE.reps p mn mx greedy, s, k =>
      firstSome (fun i => k (s.drop i)) (countsFor mn (capMax (s.takeWhile p).length mx) greedy)
  | RE.optc p, s, k =>
      match s with
      | [] => k []
      | c :: r => if p c then orElseO (k r) (k (c :: r)) else k (c :: r)
  | RE.grp r, s, k => mrun r s (fun s2 => mapCapture (k s2) (s.take (s.length - s2.length)))
  | RE.cat a b, s, k => mrun a s (fun s2 => mrun b s2 k)
  | RE.look alts allowEnd, s, k =>
      if (allowEnd && s.isEmpty) || alts.any (fun l => ciPref l s) then k s else none

/-- Match anchored at the current position (the JavaScript engine's attempt
at one start offset); a regex match does not have to reach the end of input. -/
def matchAt (re : RE) (s : List Char) : Option (Option (List Char)) :=
  mrun re s (fun _ => some none)

/-- `String.prototype.match` without the `g` flag: try each start offset
left to right and return the first successful attempt. -/
def searchRE (re : RE) : List Char → Option (Option (List Char))
  | [] => matchAt re []
  | c :: rest =>
    match matchAt re (c :: rest) with
    | some r => some r
    | none => searchRE re rest

/-- Collapse a search result to the value of `match[1]` (`none` when there
was no match at all, mirroring `match == null`). -/
def joinO : Option (Option α) → Option α
  | some (some v) => some v
  | _ => none

/-- The value of `text.match(re)?.[1]`. -/
def jsMatch1 (re : RE) (t : List Char) : Option (List Char) := joinO (searchRE re t)

/-- JavaScript `String.prototype.trim`, on the character list. -/
def jsTrim (s : List Char) : List Char :=
  ((s.dropWhile jsSpace).reverse.dropWhile jsSpace).reverse

/-- Helper building the `Label[\s:]+([^\n]+)` single-line patterns. -/
def linePat (label : String) : RE :=
  RE.cat (RE.lit label.toList)
    (RE.cat (RE.reps spaceColon 1 none true) (RE.grp (RE.reps notNewline 1 none true)))

/-- Helper building the `Label[\s:]+(\d[\d\s]{7,})` phone patterns. -/
def phoneLabelPat (label : String) : RE :=
  RE.cat (RE.lit label.toList)
    (RE.cat (RE.reps spaceColon 1 none true)
      (RE.grp (RE.cat (RE.reps jsDigit 1 (some 1) true) (RE.reps digitSpace 7 none true))))

/-- The bare pattern `(\d{4}\s?\d{3}\s?\d{3})`. -/
def barePhonePat : RE :=
  RE.grp (RE.cat (RE.reps jsDigit 4 (some 4) true)
    (RE.cat (RE.optc jsSpace)
      (RE.cat (RE.reps jsDigit 3 (some 3) true)
        (RE.cat (RE.optc jsSpace) (RE.reps jsDigit 3 (some 3) true)))))

/-- Helper building the `Label[\s:]+([\s\S]+?)(?=A|B|$)` section patterns. -/
def sectionPat (label : String) (stops : List String) : RE :=
  RE.cat (RE.lit label.toList)
    (RE.cat (RE.reps spaceColon 1 none true)
      (RE.cat (RE.grp (RE.reps anyChar 1 none false))
        (RE.look (stops.map String.toList) true)))

/-- Helper building the `Label[\s:]*\$?(\d+\.?\d*)` cost patterns. -/
def costPat (label : String) : RE :=
  RE.cat (RE.lit label.toList)
    (RE.cat (RE.reps spaceColon 0 none true)
      (RE.cat (RE.optc dollarChar)
        (RE.grp (RE.cat (RE.reps jsDigit 1 none true)
          (RE.cat (RE.optc dotChar) (RE.reps jsDigit 0 none true))))))

/-- `patterns.customerName` of the source. -/
def customerNamePatterns : List RE :=
  [linePat ("Customer"), linePat ("Name"), linePat ("Client")]

/-- `patterns.customerPhone` of the source. -/
def customerPhonePatterns : List RE :=
  [phoneLabelPat ("Phone"), phoneLabelPat ("Contact"), barePhonePat]

/-- `patterns.bikeModel` of the source. -/
def bikeModelPatterns : List RE :=
  [linePat ("Bike"), linePat ("Model"), linePat ("Motorcycle"), linePat ("Vehicle")]

/-- `patterns.workRequired` of the source: each alternative stops at the
next `Work Done` or `Notes` header or at end of input. -/
def workRequiredPatterns : List RE :=
  [sectionPat ("Work Required") ["Work Done", "Notes"],
   sectionPat ("Service Needed") ["Work Done", "Notes"],
   sectionPat ("Issues") ["Work Done", "Notes"]]

/-- `patterns.laborCost` of the source. -/
def laborCostPatterns : List RE :=
  [costPat ("Labor"), costPat ("Service Fee"), costPat ("Work Cost")]

/-- `patterns.partsCost` of the source. -/
def partsCostPatterns : List RE :=
  [costPat ("Parts"), costPat ("Materials"), costPat ("Components")]

/-- The inline `workDone` regex: `/Work Done[\s:]+([\s\S]+?)(?=Notes|$)/i`. -/
def workDoneRE : RE := sectionPat ("Work Done") ["Notes"]

/-- The inline `notes` regex: `/Notes[\s:]+([\s\S]+)/i`; it runs to the end
of the text (greedy, no lookahead). -/
def notesRE : RE :=
  RE.cat (RE.lit ("Notes".toList))
    (RE.cat (RE.reps spaceColon 1 none true) (RE.grp (RE.reps anyChar 1 none true)))

/-- The source's `tryPatterns`: try each regex in order against the full
text; on a match whose `match[1]` is a non-empty string, return it trimmed;
otherwise fall through; if every pattern fails, return the empty string. -/
def tryPatterns : List RE → List Char → List Char
  | [], _ => []
  | p :: ps, t =>
    match jsMatch1 p t with
    | some cap => if cap.isEmpty then tryPatterns ps t else jsTrim cap
    | none => tryPatterns ps t

/-- Digits-to-number accumulator for the numeric normalizer. -/
def natOfDigits (l : List Char) : Nat :=
  l.foldl (fun acc c => 10 * acc + (charNat c - 48)) 0

/-- JavaScript `parseFloat`, modelled on the strings this program feeds it:
`tryPatterns` hands it either the empty string (no match — `parseFloat`
yields `NaN`) or a trimmed capture of `\d+\.?\d*` (digits, an optional dot,
more digits).  On that domain `parseFloat` parses the leading digit run, an
optional fraction, and ignores anything after; strings with no leading digit
give `NaN` (`none` here).  Values are exact rationals; none of the verified
claims distinguishes binary floating point from exact arithmetic. -/
def parseFloatQ (s : List Char) : Option ℚ :=
  if (s.takeWhile jsDigit).isEmpty then none
  else
    match s.drop (s.takeWhile jsDigit).length with
    | c :: rest =>
      if dotChar c then
        some ((natOfDigits (s.takeWhile jsDigit) : ℚ)
          + (natOfDigits (rest.takeWhile jsDigit) : ℚ) / (10 : ℚ) ^ (rest.takeWhile jsDigit).length)
      else some (natOfDigits (s.takeWhile jsDigit) : ℚ)
    | [] => some (natOfDigits (s.takeWhile jsDigit) : ℚ)

/-- The JavaScript `s || d` idiom on strings: the empty string is falsy. -/
def strOr (l : List Char) (d : String) : String :=
  if l.isEmpty then d else String.mk l

/-- The JavaScript `parseFloat(x) || 0` idiom: `NaN` (here `none`) becomes
`0`; on a parsed number it is the identity (`0 || 0` is `0`). -/
def numOr0 : Option ℚ → ℚ
  | some q => q
  | none => 0

/-- The record returned by `parseJobSheetText`. -/
structure JobDraft where
  customerName : String
  customerPhone : String
  bikeModel : String
  workRequired : String
  workDone : String
  laborCost : ℚ
  partsCost : ℚ
  notes : String
  deriving DecidableEq, Repr

/-- `parseJobSheetText` of `src/utils/parseJobSheet.ts`, field by field. -/
def parseJobSheetText (text : String) : JobDraft :=
  let t := text.toList
  { customerName := strOr (tryPatterns customerNamePatterns t) ("Unknown Customer")
    customerPhone := strOr (tryPatterns customerPhonePatterns t) ("No Phone")
    bikeModel := strOr (tryPatterns bikeModelPatterns t) ("Unknown Model")
    workRequired := strOr (tryPatterns workRequiredPatterns t) ("No work description")
    workDone := strOr ((jsMatch1 workDoneRE t).elim [] jsTrim) ("")
    laborCost := numOr0 (parseFloatQ (tryPatterns laborCostPatterns t))
    partsCost := numOr0 (parseFloatQ (tryPatterns partsCostPatterns t))
    notes := strOr ((jsMatch1 notesRE t).elim [] jsTrim) ("") }

/-- The completeness signal of the assembler: `Incomplete` is the caller's
thrown "Could not extract required fields" error. -/
inductive Completeness where
  | Complete
  | Incomplete
  deriving DecidableEq, Repr

/-- The caller's required-field check in `processJobSheet`
(`JobSheetScanner.tsx`): `!parsedData.customerName || !parsedData.customerPhone
|| !parsedData.bikeModel` — JavaScript string truthiness, i.e. non-emptiness. -/
def requiredFieldsPresent (d : JobDraft) : Bool :=
  !(d.customerName == "") && !(d.customerPhone == "") && !(d.bikeModel == "")

/-- The persisted `jobData` record built by `processJobSheet`. -/
structure JobData where
  customerName : String
  customerPhone : String
  bikeModel : String
  workRequired : String
  workDone : String
  laborCost : ℚ
  partsCost : ℚ
  totalCost : ℚ
  notes : String
  deriving DecidableEq, Repr

/-- The `jobData` assembly of `processJobSheet`: every string field is
re-defaulted with `||` (a no-op, since `parseJobSheetText` already
defaulted), and `totalCost` is computed as
`(parsedData.laborCost || 0) + (parsedData.partsCost || 0)`; the cost fields
hold non-`NaN` numbers, on which `|| 0` is the identity. -/
def mkJobDataOf (d : JobDraft) : JobData :=
  { customerName := strOr d.customerName.toList ("Unknown Customer")
    customerPhone := strOr d.customerPhone.toList ("No Phone")
    bikeModel := strOr d.bikeModel.toList ("Unknown Model")
    workRequired := strOr d.workRequired.toList ("No work description")
    workDone := strOr d.workDone.toList ("")
    laborCost := d.laborCost
    partsCost := d.partsCost
    totalCost := d.laborCost + d.partsCost
    notes := strOr d.notes.toList ("") }

/-- `processJobSheet` after OCR: parse, check required fields (throwing —
`none` — when the check fails), and assemble the record to persist. -/
def processJobSheet (text : String) : Option JobData :=
  let d := parseJobSheetText text
  if requiredFieldsPresent d then some (mkJobDataOf d) else none

/-- The completeness signal surfaced to the caller of the scanner. -/
def jobCompleteness (text : String) : Completeness :=
  match processJobSheet text with
  | some _ => Completeness.Complete
  | none => Completeness.Incomplete

/-- The running example input of the specification (§8). -/
def c1input : String :=
  "Customer: John Jerrime\nPhone: 0411 056 876\nBike: Trek Marlin 7\nWork Required: Fork service\nWork Done: Fork Service\nHub clean\nLabor: $80\nParts: $210\nNotes: S/T 27/6/2023"

/-- Modelled from the spec claim C5: the pattern chain as the spec describes
it — a pattern whose label is present but whose captured value is empty or
only whitespace is a non-match and the chain falls through to the next
pattern; an empty string is never returned as a successful capture.  This is
the claim-side definition, to be compared with the source's `tryPatterns`. -/
def specFallthroughChain : List RE → List Char → Option (List Char)
  | [], _ => none
  | p :: ps, t =>
    match jsMatch1 p t with
    | some cap => if (jsTrim cap).isEmpty then specFallthroughChain ps t else some (jsTrim cap)
    | none => specFallthroughChain ps t

/-- Modelled from the spec claim C8: the result of a field's chain is the
first pattern's non-empty captured value, trimmed of surrounding whitespace;
`none` when no pattern captures anything.  This is the claim-side
definition, to be compared with the source's `tryPatterns` followed by the
assembler's defaulting. -/
def specFirstCaptureChain : List RE → List Char → Option (List Char)
  | [], _ => none
  | p :: ps, t =>
    match jsMatch1 p t with
    | some cap => if cap.isEmpty then specFirstCaptureChain ps t else some (jsTrim cap)
    | none => specFirstCaptureChain ps t

/-- Modelled from the spec claim C10 (claim-side): read `n` digits from the
front of the input. -/
def specDigits (n : Nat) (s : List Char) : Option (List Char × List Char) :=
  if (s.take n).length = n && (s.take n).all jsDigit then some (s.take n, s.drop n) else none

/-- Modelled from the spec claim C10 (claim-side): an optional single
whitespace character. -/
def specOptWs : List Char → List Char × List Char
  | [] => ([], [])
  | c :: r => if jsSpace c then ([c], r) else ([], c :: r)

/-- Modelled from the spec claim C10 (claim-side): a substring of the shape
"four digits, optional whitespace, three digits, optional whitespace, three
digits" at the front of the input, returned verbatim. -/
def specPhoneShape (s : List Char) : Option (List Char) :=
  match specDigits 4 s with
  | none => none
  | some (d4, r1) =>
    match specDigits 3 (specOptWs r1).2 with
    | none => none
    | some (d5, r3) =>
      match specDigits 3 (specOptWs r3).2 with
      | none => none
      | some (d6, _) => some (d4 ++ (specOptWs r1).1 ++ d5 ++ (specOptWs r3).1 ++ d6)

/-- Modelled from the spec claim C10 (claim-side): the first (leftmost)
substring of the phone shape. -/
def specPhoneSearch : List Char → Option (List Char)
  | [] => specPhoneShape []
  | c :: rest =>
    match specPhoneShape (c :: rest) with
    | some m => some m
    | none => specPhoneSearch rest

/-! ## General lemmas about the embedded operations -/

/-- A JavaScript digit is never JavaScript whitespace. -/
theorem jsDigit_space_false (c : Char) (h : jsDigit c = true) : jsSpace c = false := by
  simp only [jsDigit, Bool.and_eq_true, decide_eq_true_eq] at h
  simp only [jsSpace, Bool.or_eq_false_iff, Bool.and_eq_false_iff, decide_eq_false_iff_not,
    not_le, beq_eq_false_iff_ne, ne_eq]
  omega

/-- The empty string is the string with no characters. -/
theorem strMk_eq_empty_iff (l : List Char) : String.mk l = "" ↔ l = [] := by
  constructor
  · intro h
    exact congrArg String.data h
  · intro h
    subst h
    rfl

/-- `s || default` is never empty when the default is not. -/
theorem strOr_ne (l : List Char) (d : String) (hd : d ≠ "") : strOr l d ≠ "" := by
  unfold strOr
  split
  · exact hd
  · rename_i h
    intro heq
    exact h (by simp [List.isEmpty_iff, (strMk_eq_empty_iff l).mp heq])

/-- A successfully parsed cost is a non-negative rational: the capture
groups of the cost patterns can only produce digits and a dot, and
`parseFloatQ` builds the value from natural-number digit runs. -/
theorem parseFloatQ_nonneg (s : List Char) (q : ℚ) (h : parseFloatQ s = some q) : 0 ≤ q := by
  unfold parseFloatQ at h
  split at h
  · exact absurd h (by simp)
  · split at h
    · split at h
      · simp only [Option.some.injEq] at h
        subst h
        positivity
      · simp only [Option.some.injEq] at h
        subst h
        positivity
    · simp only [Option.some.injEq] at h
      subst h
      positivity

/-! ## Claim theorems -/

set_option maxRecDepth 1000000 in
/-- Claim C1, counterexample: on the specification's own running example
input, the extracted `workDone` is not the claimed "Fork Service\nHub clean":
the work-done regex stops only at a following "Notes" header (or end of
input), so the Labor and Parts lines are swallowed into the captured value. -/
theorem c1_cex : (parseJobSheetText c1input).workDone ≠ "Fork Service\nHub clean" := by
  decide

set_option maxRecDepth 1000000 in
/-- Claim C1 as amended: on the running example input, extraction yields
exactly the claimed values for every field except `workDone`, which is
"Fork Service\nHub clean\nLabor: $80\nParts: $210" (the capture runs up to
the "Notes" header), and the completeness signal is `Complete`;
`totalCost` of the assembled record is 290. -/
theorem c1_thm :
    parseJobSheetText c1input =
      { customerName := "John Jerrime"
        customerPhone := "0411 056 876"
        bikeModel := "Trek Marlin 7"
        workRequired := "Fork service"
        workDone := "Fork Service\nHub clean\nLabor: $80\nParts: $210"
        laborCost := 80
        partsCost := 210
        notes := "S/T 27/6/2023" }
    ∧ jobCompleteness c1input = Completeness.Complete
    ∧ (mkJobDataOf (parseJobSheetText c1input)).totalCost = 290 := by
  refine ⟨by decide, by decide, ?_⟩
  show (parseJobSheetText c1input).laborCost + (parseJobSheetText c1input).partsCost = 290
  have hl : (parseJobSheetText c1input).laborCost = 80 := by decide
  have hp : (parseJobSheetText c1input).partsCost = 210 := by decide
  rw [hl, hp]
  norm_num

set_option maxRecDepth 1000000 in
/-- Claim C2: for every input string, the assembled record's `totalCost`
equals `laborCost + partsCost` exactly, and `totalCost` is a function of
those two draft fields only (so a total printed in the text can influence it
only through them — and no pattern reads a "Total" label at all). -/
theorem c2_thm :
    (∀ t : String,
      (mkJobDataOf (parseJobSheetText t)).totalCost
        = (mkJobDataOf (parseJobSheetText t)).laborCost
          + (mkJobDataOf (parseJobSheetText t)).partsCost)
  ∧ (∀ d1 d2 : JobDraft, d1.laborCost = d2.laborCost → d1.partsCost = d2.partsCost →
      (mkJobDataOf d1).totalCost = (mkJobDataOf d2).totalCost) := by
  constructor
  · intro t
    rfl
  · intro d1 d2 h1 h2
    simp only [mkJobDataOf, h1, h2]

/-- Claim C2 witness: on an input that prints a bogus total, the assembled
total is still the sum of the parsed labor and parts costs; and two drafts
agreeing on the cost fields get the same total. -/
theorem c2_wit :
    ((mkJobDataOf (parseJobSheetText ("Labor: $3\nParts: $4\nTotal: $999"))).totalCost
      = (mkJobDataOf (parseJobSheetText ("Labor: $3\nParts: $4\nTotal: $999"))).laborCost
        + (mkJobDataOf (parseJobSheetText ("Labor: $3\nParts: $4\nTotal: $999"))).partsCost)
  ∧ (mkJobDataOf
      { customerName := "a", customerPhone := "b", bikeModel := "c", workRequired := "d"
        workDone := "e", laborCost := 3, partsCost := 4, notes := "f" }).totalCost
    = (mkJobDataOf
      { customerName := "x", customerPhone := "y", bikeModel := "z", workRequired := "w"
        workDone := "v", laborCost := 3, partsCost := 4, notes := "u" }).totalCost :=
  ⟨c2_thm.1 ("Labor: $3\nParts: $4\nTotal: $999"), c2_thm.2 _ _ (by decide) (by decide)⟩

set_option maxRecDepth 1000000 in
/-- Claim C3, counterexample: the empty input has no recognizable
"Customer"/"Name"/"Client" header, and `customerName` does default, but the
surfaced completeness signal is `Complete`, not the claimed `Incomplete`:
the caller's check tests the already-defaulted (hence non-empty) fields. -/
theorem c3_cex :
    (parseJobSheetText ("")).customerName = "Unknown Customer"
    ∧ jobCompleteness ("") = Completeness.Complete
    ∧ Completeness.Complete ≠ Completeness.Incomplete := by
  refine ⟨by decide, by decide, by decide⟩

/-- Claim C3 as amended: a required-field miss is never surfaced — for
every input string the completeness signal is `Complete`, because the
caller's required-field check inspects the draft fields after default
substitution, and the defaults "Unknown Customer", "No Phone",
"Unknown Model" are non-empty. -/
theorem c3_thm (t : String) : jobCompleteness t = Completeness.Complete := by
  have h : requiredFieldsPresent (parseJobSheetText t) = true := by
    have h1 := strOr_ne (tryPatterns customerNamePatterns t.toList) ("Unknown Customer")
      (by decide)
    have h2 := strOr_ne (tryPatterns customerPhonePatterns t.toList) ("No Phone") (by decide)
    have h3 := strOr_ne (tryPatterns bikeModelPatterns t.toList) ("Unknown Model") (by decide)
    simp only [requiredFieldsPresent, parseJobSheetText, Bool.and_eq_true, Bool.not_eq_true',
      beq_eq_false_iff_ne, ne_eq]
    exact ⟨⟨h1, h2⟩, h3⟩
  simp only [jobCompleteness, processJobSheet, h, if_true]

set_option maxRecDepth 1000000 in
/-- Claim C4, counterexample: the captured `workDone` value of the input
"Work Done: a\nLabor: $5\nParts: $6\nNotes: n" contains the following Labor
and Parts sections' text — the registry-of-all-other-headers stop boundary
the claim describes does not exist; `workDone` stops only at "Notes". -/
theorem c4_cex :
    (parseJobSheetText ("Work Done: a\nLabor: $5\nParts: $6\nNotes: n")).workDone
      = "a\nLabor: $5\nParts: $6"
    ∧ ciSub (("Labor").toList)
        ((parseJobSheetText ("Work Done: a\nLabor: $5\nParts: $6\nNotes: n")).workDone).toList
      = true := by
  refine ⟨by decide, by decide⟩

set_option maxRecDepth 1000000 in
/-- Claim C4 as amended: each multi-line capture stops only at its own
regex's lookahead tokens — `workRequired` at the next "Work Done" or
"Notes", `workDone` at the next "Notes", `notes` only at end of text; cost
headers ("Labor", "Parts") are not boundaries and their lines are swallowed
by a preceding `workDone` section, while a following "Notes" section is
still excluded. -/
theorem c4_thm :
    (parseJobSheetText ("Work Required: r\nWork Done: d\nNotes: n")).workRequired = "r"
    ∧ (parseJobSheetText ("Work Required: r\nWork Done: d\nNotes: n")).workDone = "d"
    ∧ (parseJobSheetText ("Work Required: r\nWork Done: d\nNotes: n")).notes = "n"
    ∧ (parseJobSheetText ("Work Done: a\nLabor: $5\nParts: $6\nNotes: n")).workDone
        = "a\nLabor: $5\nParts: $6"
    ∧ (parseJobSheetText ("Work Done: a\nLabor: $5\nParts: $6\nNotes: n")).notes = "n" := by
  refine ⟨by decide, by decide, by decide, by decide, by decide⟩

set_option maxRecDepth 1000000 in
/-- Claim C5, counterexample: in "Name: Bob\nCustomer: " the Customer label
is followed by whitespace only, yet the chain does not fall through to the
Name pattern — the Customer pattern matches with the one-space capture, the
chain returns the trimmed empty string as its result (so an empty string IS
returned as a successful capture), and the field then defaults instead of
becoming "Bob" as the claimed fall-through semantics would give. -/
theorem c5_cex :
    specFallthroughChain customerNamePatterns (("Name: Bob\nCustomer: ").toList)
      = some (("Bob").toList)
    ∧ tryPatterns customerNamePatterns (("Name: Bob\nCustomer: ").toList) = []
    ∧ (parseJobSheetText ("Name: Bob\nCustomer: ")).customerName = "Unknown Customer" := by
  refine ⟨by decide, by decide, by decide⟩

/-- Claim C5 as amended: a pattern whose label is followed by only
whitespace still matches (the separator class backtracks and the capture
takes a whitespace character); the chain then returns the trimmed — empty —
capture without attempting any later pattern, and the assembler's default
substitution is what keeps the empty result out of the final field. -/
theorem c5_thm (t : List Char) (p : RE) (ps ps2 : List RE) (cap : List Char)
    (hm : jsMatch1 p t = some cap) (hne : cap ≠ []) (htr : jsTrim cap = []) :
    tryPatterns (p :: ps) t = [] ∧ tryPatterns (p :: ps) t = tryPatterns (p :: ps2) t := by
  have hie : cap.isEmpty = false := by
    cases cap
    · exact absurd rfl hne
    · rfl
  constructor
  · simp only [tryPatterns, hm, hie, Bool.false_eq_true, if_false, htr]
  · simp only [tryPatterns, hm, hie, Bool.false_eq_true, if_false]

set_option maxRecDepth 1000000 in
/-- Claim C5 witness: the Customer pattern on "Customer: " (label, colon,
one space, end of input) matches with capture " "; the chain returns the
empty string and later patterns are irrelevant. -/
theorem c5_wit :
    tryPatterns (linePat ("Customer") :: [linePat ("Name"), linePat ("Client")])
      (("Customer: ").toList) = []
    ∧ tryPatterns (linePat ("Customer") :: [linePat ("Name"), linePat ("Client")])
        (("Customer: ").toList)
      = tryPatterns (linePat ("Customer") :: []) (("Customer: ").toList) :=
  c5_thm (("Customer: ").toList) (linePat ("Customer")) [linePat ("Name"), linePat ("Client")]
    [] [' '] (by decide) (by decide) (by decide)

set_option maxRecDepth 1000000 in
/-- Claim C6, counterexample: when the "Work Required" header has no
trailing content before the next recognized header, the extracted field is
not the empty string: the separator class swallows the newline and the lazy
capture is forced past the following header, so the field contains the next
section's text. -/
theorem c6_cex :
    (parseJobSheetText ("Work Required:\nWork Done: x")).workRequired = "Work Done: x"
    ∧ ("Work Done: x" : String) ≠ "" := by
  refine ⟨by decide, by decide⟩

set_option maxRecDepth 1000000 in
/-- Claim C6 as amended: an empty section does not produce an empty field.
When the next recognized header follows immediately, the capture swallows
that header and runs on (workRequired becomes "Work Done: x"); when only
whitespace follows the header at end of input, the capture trims to empty
and the field takes its configured default, again not the empty string. -/
theorem c6_thm :
    (parseJobSheetText ("Work Required:\nWork Done: x")).workRequired = "Work Done: x"
    ∧ (parseJobSheetText ("Work Required: \n")).workRequired = "No work description" := by
  refine ⟨by decide, by decide⟩

set_option maxRecDepth 1000000 in
/-- Claim C7: computing the cost fields is total and never negative — for
every input string both cost fields are non-negative rationals (the cost
capture groups produce only digit/dot text, parsed by the numeric
normalizer into non-negative values, and a failed parse or absent label
normalizes to zero), and the unparsable input "Labor: free" yields
laborCost = 0. -/
theorem c7_thm :
    (∀ t : String,
      0 ≤ (parseJobSheetText t).laborCost ∧ 0 ≤ (parseJobSheetText t).partsCost)
  ∧ (parseJobSheetText ("Labor: free")).laborCost = 0 := by
  constructor
  · intro t
    have key : ∀ l : List Char, 0 ≤ numOr0 (parseFloatQ l) := by
      intro l
      cases hq : parseFloatQ l with
      | none => simp [numOr0]
      | some q => simpa [numOr0] using parseFloatQ_nonneg l q hq
    exact ⟨key _, key _⟩
  · decide

set_option maxRecDepth 1000000 in
/-- Claim C8, counterexample: on "Model: BMX\nBike: " the first pattern of
the bikeModel chain (the Bike pattern) succeeds with the non-empty capture
" ", whose trim is the empty string — but the resulting field is the default
"Unknown Model", not that trimmed captured value, so "the result is the
first pattern's non-empty captured value, trimmed" fails on the code. -/
theorem c8_cex :
    specFirstCaptureChain bikeModelPatterns (("Model: BMX\nBike: ").toList) = some []
    ∧ (parseJobSheetText ("Model: BMX\nBike: ")).bikeModel = "Unknown Model"
    ∧ ("Unknown Model" : String) ≠ String.mk [] := by
  refine ⟨by decide, by decide, by decide⟩

/-- Claim C8 as amended: patterns are tried in configured order; if the
first matching pattern's capture trims to a non-empty value, the field is
exactly that trimmed value and the rest of the chain is never consulted; if
the trimmed capture is empty, or no pattern matches at all, the field equals
its configured default (hence never empty when the default is non-empty). -/
theorem c8_thm :
    (∀ (t : List Char) (p : RE) (ps ps2 : List RE) (cap : List Char) (d : String),
      jsMatch1 p t = some cap → cap ≠ [] → jsTrim cap ≠ [] →
      strOr (tryPatterns (p :: ps) t) d = String.mk (jsTrim cap)
        ∧ tryPatterns (p :: ps) t = tryPatterns (p :: ps2) t)
  ∧ (∀ (t : List Char) (ps : List RE) (d : String),
      ps.all (fun p => (jsMatch1 p t).isNone) = true →
      tryPatterns ps t = [] ∧ strOr (tryPatterns ps t) d = d) := by
  constructor
  · intro t p ps ps2 cap d hm hne htr
    have hie : cap.isEmpty = false := by
      cases cap
      · exact absurd rfl hne
      · rfl
    have hres : tryPatterns (p :: ps) t = jsTrim cap := by
      simp only [tryPatterns, hm, hie, Bool.false_eq_true, if_false]
    refine ⟨?_, ?_⟩
    · rw [hres]
      unfold strOr
      have : (jsTrim cap).isEmpty = false := by
        cases h : jsTrim cap
        · exact absurd h htr
        · rfl
      simp only [this, Bool.false_eq_true, if_false]
    · simp only [tryPatterns, hm, hie, Bool.false_eq_true, if_false]
  · intro t ps d hall
    have hres : tryPatterns ps t = [] := by
      induction ps with
      | nil => rfl
      | cons p ps ih =>
        simp only [List.all_cons, Bool.and_eq_true] at hall
        have hp : jsMatch1 p t = none := Option.isNone_iff_eq_none.mp hall.1
        simp only [tryPatterns, hp]
        exact ih hall.2
    exact ⟨hres, by rw [hres]; rfl⟩

set_option maxRecDepth 1000000 in
/-- Claim C8 witness: on "Customer: Al\nx" the first pattern captures "Al"
(already trimmed) and the rest of the chain is irrelevant; on "zzz" no
customer-name pattern matches and the field is the configured default. -/
theorem c8_wit :
    (strOr (tryPatterns (linePat ("Customer") :: [linePat ("Name")]) (("Customer: Al\nx").toList))
        ("Unknown Customer") = String.mk (jsTrim ['A', 'l'])
      ∧ tryPatterns (linePat ("Customer") :: [linePat ("Name")]) (("Customer: Al\nx").toList)
        = tryPatterns (linePat ("Customer") :: []) (("Customer: Al\nx").toList))
  ∧ (tryPatterns customerNamePatterns (("zzz").toList) = []
      ∧ strOr (tryPatterns customerNamePatterns (("zzz").toList)) ("Unknown Customer")
        = "Unknown Customer") :=
  ⟨c8_thm.1 (("Customer: Al\nx").toList) (linePat ("Customer")) [linePat ("Name")] []
      ['A', 'l'] ("Unknown Customer") (by decide) (by decide) (by decide),
   c8_thm.2 (("zzz").toList) customerNamePatterns ("Unknown Customer") (by decide)⟩

/-- Claim C9: extraction is a pure, deterministic function of its input —
in this embedding `parseJobSheetText`, `processJobSheet` and
`jobCompleteness` are functions, so identical inputs give identical drafts,
records and completeness signals; the TypeScript source allocates its
regexes locally, performs no I/O and mutates no shared state. -/
theorem c9_thm (t1 t2 : String) (h : t1 = t2) :
    parseJobSheetText t1 = parseJobSheetText t2
    ∧ processJobSheet t1 = processJobSheet t2
    ∧ jobCompleteness t1 = jobCompleteness t2 := by
  subst h
  exact ⟨rfl, rfl, rfl⟩

/-- Claim C9 witness: determinism instantiated at a concrete input. -/
theorem c9_wit :
    parseJobSheetText ("Customer: A") = parseJobSheetText ("Customer: A")
    ∧ processJobSheet ("Customer: A") = processJobSheet ("Customer: A")
    ∧ jobCompleteness ("Customer: A") = jobCompleteness ("Customer: A") :=
  c9_thm ("Customer: A") ("Customer: A") rfl

/-! ## Lemmas characterizing the bare phone pattern (claim C10) -/

/-- JavaScript whitespace is never a digit. -/
theorem jsSpace_digit_false (c : Char) (h : jsSpace c = true) : jsDigit c = false := by
  cases hd : jsDigit c
  · rfl
  · rw [jsDigit_space_false c hd] at h
    exact absurd h (by simp)

/-- Choosing against a failing second alternative keeps the first. -/
theorem orElseO_none (a : Option α) : orElseO a none = a := by
  cases a <;> rfl

/-- Reading an exact number of class characters: the repetition `p{n,n}`
consumes exactly `n` characters of the class run, or fails. -/
theorem mrun_repsExact (p : Char → Bool) (n : Nat) (s : List Char)
    (k : List Char → Option (Option (List Char))) :
    mrun (RE.reps p n (some n) true) s k
      = if n ≤ (s.takeWhile p).length then k (s.drop n) else none := by
  simp only [mrun, capMax]
  by_cases h : n ≤ (s.takeWhile p).length
  · rw [min_eq_right h, if_pos h]
    have hc : countsFor n n true = [n] := by
      unfold countsFor
      simp [List.range_succ]
    rw [hc]
    simp only [firstSome]
    cases k (s.drop n) <;> simp [firstSome]
  · rw [min_eq_left (Nat.le_of_lt (Nat.lt_of_not_le h)), if_neg h]
    have hc : countsFor n ((s.takeWhile p).length) true = [] := by
      unfold countsFor
      rw [if_pos (Nat.lt_of_not_le h)]
    rw [hc]
    rfl

/-- Taking `n` characters that all satisfy `p` is the same as the class run
having length at least `n`. -/
theorem take_all_iff (p : Char → Bool) : ∀ (n : Nat) (s : List Char),
    ((s.take n).length = n ∧ (s.take n).all p = true) ↔ n ≤ (s.takeWhile p).length := by
  intro n
  induction n with
  | zero => intro s; simp
  | succ n ih =>
    intro s
    cases s with
    | nil => simp
    | cons c cs =>
      cases hc : p c with
      | false => simp [List.takeWhile_cons, hc]
      | true =>
        have h1 : List.takeWhile p (c :: cs) = c :: List.takeWhile p cs := by
          simp [List.takeWhile_cons, hc]
        rw [h1, List.take_succ_cons]
        simp only [List.length_cons, List.all_cons, hc, Bool.true_and, Nat.succ_le_succ_iff,
          Nat.add_right_cancel_iff]
        exact ih cs

/-- The claim-side digit reader agrees with the class-run characterization. -/
theorem specDigits_eq (n : Nat) (s : List Char) :
    specDigits n s
      = if n ≤ (s.takeWhile jsDigit).length then some (s.take n, s.drop n) else none := by
  unfold specDigits
  by_cases h : n ≤ (s.takeWhile jsDigit).length
  · rw [if_pos h]
    have hh := (take_all_iff jsDigit n s).mpr h
    simp only [hh.1, hh.2, Bool.and_self]
    simp
  · rw [if_neg h]
    have hh : ¬ ((s.take n).length = n ∧ (s.take n).all jsDigit = true) := by
      intro hcon
      exact h ((take_all_iff jsDigit n s).mp hcon)
    rcases Decidable.not_and_iff_or_not.mp hh with h1 | h1
    · simp only [h1]
      simp
    · have : (s.take n).all jsDigit = false := by
        cases hx : (s.take n).all jsDigit
        · rfl
        · exact absurd hx h1
      simp only [this, Bool.and_false]
      simp

/-- The two halves produced by the optional-whitespace reader reassemble the
input. -/
theorem specOptWs_append (x : List Char) : (specOptWs x).1 ++ (specOptWs x).2 = x := by
  cases x with
  | nil => rfl
  | cons c r =>
    cases hc : jsSpace c with
    | true => simp [specOptWs, hc]
    | false => simp [specOptWs, hc]

/-- Taking all but the length of a known suffix recovers the prefix. -/
theorem take_sub_append (a b : List Char) :
    (a ++ b).take ((a ++ b).length - b.length) = a := by
  rw [List.length_append, Nat.add_sub_cancel]
  exact List.take_left a b

/-- An optional whitespace before a three-digit block: the greedy optional
either consumes one whitespace character (and then the digit block cannot
start with that whitespace, so the unconsumed alternative fails) or consumes
nothing. -/
theorem mrun_phoneT1 (s : List Char) (k : List Char → Option (Option (List Char))) :
    mrun (RE.cat (RE.optc jsSpace) (RE.reps jsDigit 3 (some 3) true)) s k
      = mrun (RE.reps jsDigit 3 (some 3) true) (specOptWs s).2 k := by
  cases s with
  | nil => rfl
  | cons c r =>
    have h0 : mrun (RE.cat (RE.optc jsSpace) (RE.reps jsDigit 3 (some 3) true)) (c :: r) k
        = if jsSpace c then
            orElseO (mrun (RE.reps jsDigit 3 (some 3) true) r k)
              (mrun (RE.reps jsDigit 3 (some 3) true) (c :: r) k)
          else mrun (RE.reps jsDigit 3 (some 3) true) (c :: r) k := rfl
    rw [h0]
    cases hc : jsSpace c with
    | true =>
      rw [if_pos rfl]
      have hnone : mrun (RE.reps jsDigit 3 (some 3) true) (c :: r) k = none := by
        rw [mrun_repsExact]
        have ht : List.takeWhile jsDigit (c :: r) = [] := by
          simp [List.takeWhile_cons, jsSpace_digit_false c hc]
        rw [ht]
        simp
      rw [hnone, orElseO_none]
      have hw : specOptWs (c :: r) = ([c], r) := by simp [specOptWs, hc]
      rw [hw]
    | false =>
      rw [if_neg (by simp)]
      have hw : specOptWs (c :: r) = ([], c :: r) := by simp [specOptWs, hc]
      rw [hw]

/-- The last two blocks of the bare phone pattern (`\d{3}\s?\d{3}` after the
first optional whitespace has been resolved): exact-count digit reads
interleaved with the optional whitespace. -/
theorem mrun_phoneT2 (s : List Char) (k : List Char → Option (Option (List Char))) :
    mrun (RE.cat (RE.reps jsDigit 3 (some 3) true)
        (RE.cat (RE.optc jsSpace) (RE.reps jsDigit 3 (some 3) true))) s k
      = if 3 ≤ (s.takeWhile jsDigit).length then
          (if 3 ≤ (((specOptWs (s.drop 3)).2).takeWhile jsDigit).length
            then k (((specOptWs (s.drop 3)).2).drop 3) else none)
        else none := by
  have h0 : mrun (RE.cat (RE.reps jsDigit 3 (some 3) true)
      (RE.cat (RE.optc jsSpace) (RE.reps jsDigit 3 (some 3) true))) s k
      = mrun (RE.reps jsDigit 3 (some 3) true) s
          (fun s2 => mrun (RE.cat (RE.optc jsSpace) (RE.reps jsDigit 3 (some 3) true)) s2 k) :=
    rfl
  rw [h0]
  simp only [mrun_repsExact, mrun_phoneT1]

/-- The optional whitespace in front of the last two blocks: same resolution
as `mrun_phoneT1`. -/
theorem mrun_phoneT3 (s : List Char) (k : List Char → Option (Option (List Char))) :
    mrun (RE.cat (RE.optc jsSpace)
        (RE.cat (RE.reps jsDigit 3 (some 3) true)
          (RE.cat (RE.optc jsSpace) (RE.reps jsDigit 3 (some 3) true)))) s k
      = mrun (RE.cat (RE.reps jsDigit 3 (some 3) true)
          (RE.cat (RE.optc jsSpace) (RE.reps jsDigit 3 (some 3) true))) (specOptWs s).2 k := by
  cases s with
  | nil => rfl
  | cons c r =>
    have h0 : mrun (RE.cat (RE.optc jsSpace)
        (RE.cat (RE.reps jsDigit 3 (some 3) true)
          (RE.cat (RE.optc jsSpace) (RE.reps jsDigit 3 (some 3) true)))) (c :: r) k
        = if jsSpace c then
            orElseO
              (mrun (RE.cat (RE.reps jsDigit 3 (some 3) true)
                (RE.cat (RE.optc jsSpace) (RE.reps jsDigit 3 (some 3) true))) r k)
              (mrun (RE.cat (RE.reps jsDigit 3 (some 3) true)
                (RE.cat (RE.optc jsSpace) (RE.reps jsDigit 3 (some 3) true))) (c :: r) k)
          else mrun (RE.cat (RE.reps jsDigit 3 (some 3) true)
            (RE.cat (RE.optc jsSpace) (RE.reps jsDigit 3 (some 3) true))) (c :: r) k := rfl
    rw [h0]
    cases hc : jsSpace c with
    | true =>
      rw [if_pos rfl]
      have hnone : mrun (RE.cat (RE.reps jsDigit 3 (some 3) true)
          (RE.cat (RE.optc jsSpace) (RE.reps jsDigit 3 (some 3) true))) (c :: r) k = none := by
        rw [mrun_phoneT2]
        have ht : List.takeWhile jsDigit (c :: r) = [] := by
          simp [List.takeWhile_cons, jsSpace_digit_false c hc]
        rw [ht]
        simp
      rw [hnone, orElseO_none]
      have hw : specOptWs (c :: r) = ([c], r) := by simp [specOptWs, hc]
      rw [hw]
    | false =>
      rw [if_neg (by simp)]
      have hw : specOptWs (c :: r) = ([], c :: r) := by simp [specOptWs, hc]
      rw [hw]

/-- Composed-conditional form of the claim-side phone shape reader. -/
theorem specPhoneShape_eq (s : List Char) :
    specPhoneShape s
      = if 4 ≤ (s.takeWhile jsDigit).length then
          (if 3 ≤ (((specOptWs (s.drop 4)).2).takeWhile jsDigit).length then
            (if 3 ≤ (((specOptWs ((((specOptWs (s.drop 4)).2)).drop 3)).2).takeWhile
                jsDigit).length then
              some (s.take 4 ++ (specOptWs (s.drop 4)).1 ++ ((specOptWs (s.drop 4)).2).take 3
                ++ (specOptWs ((((specOptWs (s.drop 4)).2)).drop 3)).1
                ++ ((specOptWs ((((specOptWs (s.drop 4)).2)).drop 3)).2).take 3)
            else none)
          else none)
        else none := by
  by_cases h4 : 4 ≤ (s.takeWhile jsDigit).length
  · by_cases h5 : 3 ≤ (((specOptWs (s.drop 4)).2).takeWhile jsDigit).length
    · by_cases h6 : 3 ≤ (((specOptWs ((((specOptWs (s.drop 4)).2)).drop 3)).2).takeWhile
          jsDigit).length
      · simp [specPhoneShape, specDigits_eq, h4, h5, h6]
      · simp [specPhoneShape, specDigits_eq, h4, h5, h6]
    · simp [specPhoneShape, specDigits_eq, h4, h5]
  · simp [specPhoneShape, specDigits_eq, h4]

/-- Reassembling the five consumed pieces of the phone shape recovers the
input up to the final remainder. -/
theorem assemble5 (s w1 b1 w2 b2 : List Char)
    (hw1 : w1 ++ b1 = s.drop 4)
    (hw2 : w2 ++ b2 = b1.drop 3) :
    (s.take 4 ++ w1 ++ b1.take 3 ++ w2 ++ b2.take 3) ++ b2.drop 3 = s := by
  have e1 := List.take_append_drop 4 s
  have e3 := List.take_append_drop 3 b1
  have e5 := List.take_append_drop 3 b2
  calc (s.take 4 ++ w1 ++ b1.take 3 ++ w2 ++ b2.take 3) ++ b2.drop 3
      = s.take 4 ++ (w1 ++ (b1.take 3 ++ (w2 ++ (b2.take 3 ++ b2.drop 3)))) := by
        simp [List.append_assoc]
    _ = s.take 4 ++ (w1 ++ (b1.take 3 ++ (w2 ++ b2))) := by rw [e5]
    _ = s.take 4 ++ (w1 ++ (b1.take 3 ++ b1.drop 3)) := by rw [hw2]
    _ = s.take 4 ++ (w1 ++ b1) := by rw [e3]
    _ = s.take 4 ++ s.drop 4 := by rw [hw1]
    _ = s := e1

/-- One anchored attempt of the bare phone pattern agrees with the
claim-side shape reader, capture included. -/
theorem matchAt_barePhone (s : List Char) :
    matchAt barePhonePat s = (specPhoneShape s).map some := by
  have h0 : matchAt barePhonePat s
      = mrun (RE.reps jsDigit 4 (some 4) true) s
          (fun s1 =>
            mrun (RE.cat (RE.optc jsSpace)
              (RE.cat (RE.reps jsDigit 3 (some 3) true)
                (RE.cat (RE.optc jsSpace) (RE.reps jsDigit 3 (some 3) true)))) s1
              (fun s2 => some (some (s.take (s.length - s2.length))))) := rfl
  rw [h0, specPhoneShape_eq]
  simp only [mrun_repsExact, mrun_phoneT3, mrun_phoneT2]
  by_cases h4 : 4 ≤ (s.takeWhile jsDigit).length
  · rw [if_pos h4, if_pos h4]
    by_cases h5 : 3 ≤ (((specOptWs (s.drop 4)).2).takeWhile jsDigit).length
    · rw [if_pos h5, if_pos h5]
      by_cases h6 : 3 ≤ (((specOptWs ((((specOptWs (s.drop 4)).2)).drop 3)).2).takeWhile
          jsDigit).length
      · rw [if_pos h6, if_pos h6]
        simp only [Option.map_some']
        have hS : (s.take 4 ++ (specOptWs (s.drop 4)).1 ++ ((specOptWs (s.drop 4)).2).take 3
              ++ (specOptWs ((((specOptWs (s.drop 4)).2)).drop 3)).1
              ++ (specOptWs ((((specOptWs (s.drop 4)).2)).drop 3)).2.take 3)
            ++ (specOptWs ((((specOptWs (s.drop 4)).2)).drop 3)).2.drop 3 = s :=
          assemble5 s (specOptWs (s.drop 4)).1 (specOptWs (s.drop 4)).2
            (specOptWs (((specOptWs (s.drop 4)).2).drop 3)).1
            (specOptWs (((specOptWs (s.drop 4)).2).drop 3)).2
            (specOptWs_append (s.drop 4))
            (specOptWs_append (((specOptWs (s.drop 4)).2).drop 3))
        have hfin := take_sub_append
          (s.take 4 ++ (specOptWs (s.drop 4)).1 ++ ((specOptWs (s.drop 4)).2).take 3
            ++ (specOptWs ((((specOptWs (s.drop 4)).2)).drop 3)).1
            ++ (specOptWs ((((specOptWs (s.drop 4)).2)).drop 3)).2.take 3)
          ((specOptWs ((((specOptWs (s.drop 4)).2)).drop 3)).2.drop 3)
        rw [hS] at hfin
        rw [hfin]
      · rw [if_neg h6, if_neg h6]
        rfl
    · rw [if_neg h5, if_neg h5]
      rfl
  · rw [if_neg h4, if_neg h4]
    rfl

/-- The search for the bare phone pattern agrees with the claim-side
leftmost shape search. -/
theorem searchRE_barePhone : ∀ s : List Char,
    searchRE barePhonePat s = (specPhoneSearch s).map some := by
  intro s
  induction s with
  | nil => simp [searchRE, specPhoneSearch, matchAt_barePhone]
  | cons c rest ih =>
    simp only [searchRE, specPhoneSearch, matchAt_barePhone]
    cases h : specPhoneShape (c :: rest) with
    | some m => simp [h]
    | none => simp [h, ih]

/-- A regex starting with a literal cannot match anywhere in a text in
which that literal does not occur (case-insensitively). -/
theorem searchRE_cat_lit (l : List Char) (r : RE) : ∀ s : List Char,
    ciSub l s = false → searchRE (RE.cat (RE.lit l) r) s = none := by
  intro s
  induction s with
  | nil =>
    intro h
    have hp : ciPref l [] = false := by simpa [ciSub] using h
    simp [searchRE, matchAt, mrun, hp]
  | cons c rest ih =>
    intro h
    simp only [ciSub, Bool.or_eq_false_iff] at h
    have h2 := ih h.2
    simp [searchRE, matchAt, mrun, h.1, h2]

/-- A list whose first and last characters are not whitespace is unchanged
by trimming. -/
theorem jsTrim_eq_self (l : List Char)
    (h1 : ∀ c, l.head? = some c → jsSpace c = false)
    (h2 : ∀ c, l.getLast? = some c → jsSpace c = false) : jsTrim l = l := by
  unfold jsTrim
  have hd : l.dropWhile jsSpace = l := by
    cases l with
    | nil => rfl
    | cons c t =>
      have := h1 c rfl
      simp [List.dropWhile_cons, this]
  rw [hd]
  have hr : l.reverse.dropWhile jsSpace = l.reverse := by
    cases hrev : l.reverse with
    | nil => rfl
    | cons c t =>
      have hlast : l.getLast? = some c := by
        rw [← List.head?_reverse, hrev]
        rfl
      have := h2 c hlast
      simp [List.dropWhile_cons, this]
  rw [hr, List.reverse_reverse]

/-- The last element of a list of class characters is a class character. -/
theorem all_getLast (p : Char → Bool) : ∀ (l : List Char) (c : Char),
    l.all p = true → l.getLast? = some c → p c = true := by
  intro l
  induction l with
  | nil =>
    intro c _ hl
    cases hl
  | cons a t ih =>
    intro c hall hl
    cases t with
    | nil =>
      simp only [List.all_cons, Bool.and_eq_true] at hall
      have : a = c := by
        have : some a = some c := hl
        exact Option.some.injEq a c ▸ (by injection this)
      rw [← this]
      exact hall.1
    | cons b t2 =>
      rw [List.all_cons, Bool.and_eq_true] at hall
      rw [List.getLast?_cons_cons] at hl
      exact ih c hall.2 hl

/-- Every non-empty list has a last element. -/
theorem getLast_exists : ∀ (l : List Char), l ≠ [] → ∃ c, l.getLast? = some c := by
  intro l
  induction l with
  | nil => intro h; exact absurd rfl h
  | cons a t ih =>
    intro _
    cases t with
    | nil => exact ⟨a, rfl⟩
    | cons b t2 =>
      obtain ⟨c, hc⟩ := ih (by simp)
      exact ⟨c, by rw [List.getLast?_cons_cons]; exact hc⟩

/-- A successful claim-side shape read is non-empty and trim-invariant: it
begins and ends with a digit. -/
theorem specPhoneShape_props (s m : List Char) (h : specPhoneShape s = some m) :
    m ≠ [] ∧ jsTrim m = m := by
  rw [specPhoneShape_eq] at h
  by_cases h4 : 4 ≤ (s.takeWhile jsDigit).length
  case neg => rw [if_neg h4] at h; cases h
  rw [if_pos h4] at h
  by_cases h5 : 3 ≤ (((specOptWs (s.drop 4)).2).takeWhile jsDigit).length
  case neg => rw [if_neg h5] at h; cases h
  rw [if_pos h5] at h
  by_cases h6 : 3 ≤ (((specOptWs ((((specOptWs (s.drop 4)).2)).drop 3)).2).takeWhile
      jsDigit).length
  case neg => rw [if_neg h6] at h; cases h
  rw [if_pos h6] at h
  have hm : s.take 4 ++ (specOptWs (s.drop 4)).1 ++ ((specOptWs (s.drop 4)).2).take 3
      ++ (specOptWs ((((specOptWs (s.drop 4)).2)).drop 3)).1
      ++ ((specOptWs ((((specOptWs (s.drop 4)).2)).drop 3)).2).take 3 = m := by
    injection h
  have hd4 := (take_all_iff jsDigit 4 s).mpr h4
  have hd6 := (take_all_iff jsDigit 3
    ((specOptWs ((((specOptWs (s.drop 4)).2)).drop 3)).2)).mpr h6
  obtain ⟨c, t4, hct⟩ : ∃ c t4, s.take 4 = c :: t4 := by
    cases hx : s.take 4 with
    | nil => rw [hx] at hd4; exact absurd hd4.1 (by simp)
    | cons c t4 => exact ⟨c, t4, rfl⟩
  have hcd : jsDigit c = true := by
    have := hd4.2
    rw [hct] at this
    simp only [List.all_cons, Bool.and_eq_true] at this
    exact this.1
  have hd6ne : ((specOptWs ((((specOptWs (s.drop 4)).2)).drop 3)).2).take 3 ≠ [] := by
    intro hx
    rw [hx] at hd6
    exact absurd hd6.1 (by simp)
  obtain ⟨e, he⟩ := getLast_exists _ hd6ne
  have hed : jsDigit e = true := all_getLast jsDigit _ e hd6.2 he
  have hmhead : m.head? = some c := by
    rw [← hm, hct]
    rfl
  have hmlast : m.getLast? = some e := by
    rw [← hm, List.getLast?_append, he]
    rfl
  constructor
  · intro hx
    rw [hx] at hmhead
    cases hmhead
  · refine jsTrim_eq_self m ?_ ?_
    · intro ch hch
      rw [hmhead] at hch
      have : c = ch := by injection hch
      rw [← this]
      exact jsDigit_space_false c hcd
    · intro ch hch
      rw [hmlast] at hch
      have : e = ch := by injection hch
      rw [← this]
      exact jsDigit_space_false e hed

/-- A successful claim-side leftmost search is non-empty and
trim-invariant. -/
theorem specPhoneSearch_props : ∀ (s m : List Char),
    specPhoneSearch s = some m → m ≠ [] ∧ jsTrim m = m := by
  intro s
  induction s with
  | nil =>
    intro m h
    exact specPhoneShape_props [] m (by simpa [specPhoneSearch] using h)
  | cons c rest ih =>
    intro m h
    simp only [specPhoneSearch] at h
    cases hs : specPhoneShape (c :: rest) with
    | some m2 =>
      rw [hs] at h
      have h3 : some m2 = some m := h
      have hm2 : m2 = m := by injection h3
      exact specPhoneShape_props (c :: rest) m (by rw [hs, hm2])
    | none =>
      rw [hs] at h
      exact ih m h

/-- Claim C10 (implicit): for every input with no "Phone" or "Contact"
label anywhere (case-insensitively), if the text contains a substring of the
shape four digits, optional whitespace, three digits, optional whitespace,
three digits, then customerPhone is set to the first such unlabeled digit
sequence (the source regex's `\s?` admits any whitespace character, which is
how "optional space" is read here) rather than to the default "No Phone". -/
theorem c10_thm (t : String) (m : List Char)
    (hp : ciSub (("Phone").toList) t.toList = false)
    (hc : ciSub (("Contact").toList) t.toList = false)
    (hm : specPhoneSearch t.toList = some m) :
    (parseJobSheetText t).customerPhone = String.mk m := by
  have h1 : jsMatch1 (phoneLabelPat ("Phone")) t.toList = none := by
    unfold jsMatch1 phoneLabelPat
    rw [searchRE_cat_lit _ _ _ hp]
    rfl
  have h2 : jsMatch1 (phoneLabelPat ("Contact")) t.toList = none := by
    unfold jsMatch1 phoneLabelPat
    rw [searchRE_cat_lit _ _ _ hc]
    rfl
  have h3 : jsMatch1 barePhonePat t.toList = some m := by
    unfold jsMatch1
    rw [searchRE_barePhone, hm]
    rfl
  obtain ⟨hne, htr⟩ := specPhoneSearch_props t.toList m hm
  have hie : m.isEmpty = false := by
    cases m
    · exact absurd rfl hne
    · rfl
  have htp : tryPatterns customerPhonePatterns t.toList = m := by
    simp only [customerPhonePatterns, tryPatterns, h1, h2, h3, hie, Bool.false_eq_true,
      if_false]
    exact htr
  have hjoin : (parseJobSheetText t).customerPhone
      = strOr (tryPatterns customerPhonePatterns t.toList) ("No Phone") := rfl
  rw [hjoin, htp]
  unfold strOr
  rw [if_neg (by simp [hie])]

set_option maxRecDepth 1000000 in
/-- Claim C10 witness: "Call 0411 056 876 now" has no Phone/Contact label
and contains one shape substring; customerPhone is exactly it. -/
theorem c10_wit :
    ciSub (("Phone").toList) (("Call 0411 056 876 now").toList) = false
    ∧ ciSub (("Contact").toList) (("Call 0411 056 876 now").toList) = false
    ∧ specPhoneSearch (("Call 0411 056 876 now").toList) = some (("0411 056 876").toList)
    ∧ (parseJobSheetText ("Call 0411 056 876 now")).customerPhone
      = String.mk (("0411 056 876").toList) :=
  ⟨by decide, by decide, by decide,
   c10_thm ("Call 0411 056 876 now") (("0411 056 876").toList) (by decide) (by decide)
     (by decide)⟩
